import Mathlib

/-!
Verification of the Xeniria static site generator against its specification.

The build orchestration (`main`, `generate_about`, `generate_index`) is embedded
from `src/main.rs`.  The `markdown` and `server` modules are not part of the
repository snapshot, so the Front-Matter Extractor, Markdown Renderer, Content
Analyzer and Page/Post Assembler are modelled from the specification text
(each such definition carries a `Modelled from the spec:` comment).

Raw file text is represented as its list of characters (`Text := List Char`),
so "byte-for-byte" statements become list equalities.
-/

set_option maxRecDepth 100000

namespace Xeniria

/-- Raw text, character by character. -/
abbrev Text := List Char

/-- Split a text into its lines at `'\n'` separators. -/
def splitLines : Text → List Text
  | [] => [[]]
  | c :: cs =>
    if c = '\n' then [] :: splitLines cs
    else
      match splitLines cs with
      | [] => [[c]]
      | l :: ls => (c :: l) :: ls

/-- Join lines back with `'\n'` separators. -/
def joinLines : List Text → Text
  | [] => []
  | [l] => l
  | l :: ls => l ++ '\n' :: joinLines ls

theorem splitLines_ne_nil (t : Text) : splitLines t ≠ [] := by
  cases t with
  | nil => simp [splitLines]
  | cons c cs =>
    by_cases hc : c = '\n'
    · simp [splitLines, hc]
    · simp only [splitLines, if_neg hc]
      cases h : splitLines cs <;> simp

theorem splitLines_cons_exists (t : Text) : ∃ l ls, splitLines t = l :: ls := by
  cases h : splitLines t with
  | nil => exact absurd h (splitLines_ne_nil t)
  | cons a b => exact ⟨a, b, rfl⟩

theorem splitLines_append_newline (l t : Text) (h : '\n' ∉ l) :
    splitLines (l ++ '\n' :: t) = l :: splitLines t := by
  induction l with
  | nil => simp [splitLines]
  | cons c cs ih =>
    have hc : c ≠ '\n' := fun hEq => h (hEq ▸ List.mem_cons_self c cs)
    have hrest : '\n' ∉ cs := fun hm => h (List.mem_cons_of_mem _ hm)
    simp only [List.cons_append, splitLines, if_neg hc]
    have ih2 : splitLines (cs.append ('\n' :: t)) = cs :: splitLines t := ih hrest
    rw [ih2]

theorem joinLines_splitLines (t : Text) : joinLines (splitLines t) = t := by
  induction t with
  | nil => rfl
  | cons c cs ih =>
    obtain ⟨l, ls, hls⟩ := splitLines_cons_exists cs
    by_cases hc : c = '\n'
    · subst hc
      rw [show splitLines ('\n' :: cs) = [] :: splitLines cs from by simp [splitLines]]
      rw [hls]
      show '\n' :: joinLines (l :: ls) = '\n' :: cs
      rw [← hls, ih]
    · have hstep : splitLines (c :: cs) = (c :: l) :: ls := by
        simp only [splitLines, if_neg hc, hls]
      rw [hstep]
      cases ls with
      | nil =>
        have hl : l = cs := by rw [hls] at ih; simpa [joinLines] using ih
        simp [joinLines, hl]
      | cons m ms =>
        have hl : l ++ '\n' :: joinLines (m :: ms) = cs := by
          rw [hls] at ih; simpa [joinLines] using ih
        simp [joinLines, ← hl]

/-- Front matter of a source file: the three required keys. -/
structure FrontMatter where
  title : Text
  author : Text
  date : Text
deriving DecidableEq

/-- Error taxonomy of the core (spec section 7). -/
inductive XenError where
  | MalformedFrontMatter
  | EncodingError
  | RenderError
deriving DecidableEq

/-- The front-matter fence marker line. -/
def fmDelim : Text := ("---").data

/-- Strip a literal leading pattern from a text, returning the remainder. -/
def stripLeading : Text → Text → Option Text
  | [], s => some s
  | _ :: _, [] => none
  | p :: ps, c :: cs => if p = c then stripLeading ps cs else none

/-- Find the value of the first line carrying the given `key: ` marker. -/
def lookupField (marker : Text) : List Text → Option Text
  | [] => none
  | l :: ls =>
    match stripLeading marker l with
    | some v => some v
    | none => lookupField marker ls

/-- Split a line list at the first fence line; `none` when the fence never closes. -/
def splitAtDelim : List Text → Option (List Text × List Text)
  | [] => none
  | l :: ls =>
    if l = fmDelim then some ([], ls)
    else
      match splitAtDelim ls with
      | none => none
      | some (fm, body) => some (l :: fm, body)

/-- Modelled from the spec: the Front-Matter Extractor (`markdown` module, absent
from the repository snapshot).  It locates a fenced key-value block at the very
start of the file, parses the `title`, `author` and `date` keys into a
`FrontMatter`, and returns the remaining text untouched; it fails with
`MalformedFrontMatter` when the leading fence is absent, the block is
unterminated, or a required key is missing. -/
def extract_front_matter (text : Text) : Except XenError (FrontMatter × Text) :=
  match splitLines text with
  | [] => .error .MalformedFrontMatter
  | first :: rest =>
    if first = fmDelim then
      match splitAtDelim rest with
      | none => .error .MalformedFrontMatter
      | some (fmLines, bodyLines) =>
        match lookupField (("title: ").data) fmLines,
              lookupField (("author: ").data) fmLines,
              lookupField (("date: ").data) fmLines with
        | some t, some a, some d => .ok (⟨t, a, d⟩, joinLines bodyLines)
        | _, _, _ => .error .MalformedFrontMatter
    else .error .MalformedFrontMatter

/-- A source document that begins with a well-formed front-matter block holding
the three required keys, followed by an arbitrary body. -/
def mkFrontMatterDoc (fm : FrontMatter) (body : Text) : Text :=
  fmDelim ++ '\n' ::
    ((("title: ").data ++ fm.title) ++ '\n' ::
      ((("author: ").data ++ fm.author) ++ '\n' ::
        ((("date: ").data ++ fm.date) ++ '\n' ::
          (fmDelim ++ '\n' :: body))))

theorem splitAtDelim_no_delim (ls : List Text) (h : fmDelim ∉ ls) :
    splitAtDelim ls = none := by
  induction ls with
  | nil => rfl
  | cons l t ih =>
    have hl : l ≠ fmDelim := fun hEq => h (hEq ▸ List.mem_cons_self l t)
    have ht : fmDelim ∉ t := fun hm => h (List.mem_cons_of_mem _ hm)
    simp only [splitAtDelim, if_neg hl, ih ht]

/-- C1: on every document that begins with a well-formed front-matter block
listing `title`, `author` and `date`, the Extractor succeeds with exactly those
field values and returns the remaining text byte-for-byte as the body. -/
theorem extractor_roundtrip (fm : FrontMatter) (body : Text)
    (hT : '\n' ∉ fm.title) (hA : '\n' ∉ fm.author) (hD : '\n' ∉ fm.date) :
    extract_front_matter (mkFrontMatterDoc fm body) = .ok (fm, body) := by
  have hDelim : '\n' ∉ fmDelim := by decide
  have hTl : '\n' ∉ ("title: ").data ++ fm.title := by
    intro hm
    rcases List.mem_append.mp hm with h | h
    · exact absurd h (by decide)
    · exact hT h
  have hAl : '\n' ∉ ("author: ").data ++ fm.author := by
    intro hm
    rcases List.mem_append.mp hm with h | h
    · exact absurd h (by decide)
    · exact hA h
  have hDl : '\n' ∉ ("date: ").data ++ fm.date := by
    intro hm
    rcases List.mem_append.mp hm with h | h
    · exact absurd h (by decide)
    · exact hD h
  have hs : splitLines (mkFrontMatterDoc fm body) =
      fmDelim :: ((("title: ").data ++ fm.title) ::
        ((("author: ").data ++ fm.author) ::
          ((("date: ").data ++ fm.date) :: (fmDelim :: splitLines body)))) := by
    unfold mkFrontMatterDoc
    rw [splitLines_append_newline _ _ hDelim,
        splitLines_append_newline _ _ hTl,
        splitLines_append_newline _ _ hAl,
        splitLines_append_newline _ _ hDl,
        splitLines_append_newline _ _ hDelim]
  unfold extract_front_matter
  rw [hs]
  show Except.ok (fm, joinLines (splitLines body)) = Except.ok (fm, body)
  rw [joinLines_splitLines]

/-- Witness for C1 at a concrete document. -/
theorem extractor_roundtrip_witness :
    extract_front_matter
        (mkFrontMatterDoc ⟨("Hello").data, ("Ann").data, ("2024-01-01").data⟩
          (("# Hi\n\nThis is a short post.").data)) =
      .ok (⟨("Hello").data, ("Ann").data, ("2024-01-01").data⟩,
        ("# Hi\n\nThis is a short post.").data) :=
  extractor_roundtrip _ _ (by decide) (by decide) (by decide)

/-- C2: on every input whose first line is not the front-matter fence, or whose
leading block never closes, or whose block lacks one of the required keys, the
Extractor fails with `MalformedFrontMatter`; the `Except.error` result carries
no `FrontMatter` value, so no partially-populated record escapes. -/
theorem extractor_malformed (text : Text)
    (h : (splitLines text).head? ≠ some fmDelim
      ∨ (∃ rest, splitLines text = fmDelim :: rest ∧ fmDelim ∉ rest)
      ∨ (∃ rest fmLines bodyLines,
          splitLines text = fmDelim :: rest
          ∧ splitAtDelim rest = some (fmLines, bodyLines)
          ∧ (lookupField (("title: ").data) fmLines = none
            ∨ lookupField (("author: ").data) fmLines = none
            ∨ lookupField (("date: ").data) fmLines = none))) :
    extract_front_matter text = .error .MalformedFrontMatter := by
  obtain ⟨l, ls, hls⟩ := splitLines_cons_exists text
  rcases h with h | ⟨rest, hrest, hnod⟩ | ⟨rest, fmLines, bodyLines, hrest, hsplit, hmiss⟩
  · have hne : l ≠ fmDelim := by
      intro hEq
      exact h (by rw [hls, hEq]; rfl)
    unfold extract_front_matter
    rw [hls]
    simp only [if_neg hne]
  · unfold extract_front_matter
    rw [hrest]
    simp [splitAtDelim_no_delim rest hnod]
  · unfold extract_front_matter
    rw [hrest]
    simp only [if_pos rfl, hsplit]
    rcases hmiss with hm | hm | hm <;>
      · rw [hm]
        cases lookupField (("title: ").data) fmLines <;>
          cases lookupField (("author: ").data) fmLines <;>
            cases lookupField (("date: ").data) fmLines <;> simp_all

/-- Witness for C2: a text with no front-matter fence at all. -/
theorem extractor_malformed_witness :
    extract_front_matter (("just a plain file\nwith no front matter").data) =
      .error .MalformedFrontMatter :=
  extractor_malformed _ (Or.inl (by decide))

/-- Count of maximal whitespace-separated tokens; the flag records whether the
scan is currently inside a word. -/
def word_count_go : Text → Bool → Nat
  | [], _ => 0
  | c :: cs, inWord =>
    if c.isWhitespace then word_count_go cs false
    else (if inWord then 0 else 1) + word_count_go cs true

/-- Number of whitespace-separated words in a body text. -/
def word_count (t : Text) : Nat := word_count_go t false

/-- Modelled from the spec: the Content Analyzer (`markdown` module, absent from
the repository snapshot) estimates reading time as `ceil(word_count / 200)`
minutes, floored at 1 minute. -/
def reading_time (body : Text) : Nat := max 1 ((word_count body + 199) / 200)

theorem word_count_go_append_le (t extra : Text) :
    ∀ b : Bool, word_count_go t b ≤ word_count_go (t ++ extra) b := by
  induction t with
  | nil => intro b; exact Nat.zero_le _
  | cons c cs ih =>
    intro b
    by_cases hc : c.isWhitespace
    · simp only [List.cons_append, word_count_go, if_pos hc]
      exact ih false
    · simp only [List.cons_append, word_count_go, if_neg hc]
      exact Nat.add_le_add_left (ih true) _

/-- C3: reading time is always at least one minute (in particular for every
non-empty body), and appending further text to a body never decreases the
estimate `max 1 (ceil(word_count / 200))`. -/
theorem reading_time_floor_mono (body extra : Text) :
    1 ≤ reading_time body ∧ reading_time body ≤ reading_time (body ++ extra) := by
  constructor
  · exact le_max_left 1 _
  · have hw : word_count body ≤ word_count (body ++ extra) :=
      word_count_go_append_le body extra false
    have hdiv : (word_count body + 199) / 200 ≤ (word_count (body ++ extra) + 199) / 200 :=
      Nat.div_le_div_right (Nat.add_le_add_right hw 199)
    exact max_le_max (le_refl 1) hdiv

/-- Group the non-blank lines of a document into blank-line-separated blocks;
the accumulator holds the current open block. -/
def blocksGo : List Text → List Text → List (List Text)
  | [], acc => if acc = [] then [] else [acc]
  | l :: ls, acc =>
    if l = [] then
      (if acc = [] then blocksGo ls [] else acc :: blocksGo ls [])
    else blocksGo ls (acc ++ [l])

/-- Blank-line-separated blocks of a line list. -/
def mdBlocks (lines : List Text) : List (List Text) := blocksGo lines []

/-- Render one markdown block: an ATX heading of level 1-3, or a paragraph. -/
def renderBlock (b : List Text) : Text :=
  match b with
  | [] => []
  | first :: _ =>
    if (("# ").data).isPrefixOf first then
      ("<h1>").data ++ first.drop 2 ++ ("</h1>").data
    else if (("## ").data).isPrefixOf first then
      ("<h2>").data ++ first.drop 3 ++ ("</h2>").data
    else if (("### ").data).isPrefixOf first then
      ("<h3>").data ++ first.drop 4 ++ ("</h3>").data
    else ("<p>").data ++ joinLines b ++ ("</p>").data

/-- Modelled from the spec: the Markdown Renderer (`markdown` module, absent
from the repository snapshot) is a thin, pure contract over a standard
markdown-to-HTML conversion; it is modelled here over the block constructs the
claims exercise (headings and paragraphs), splitting the body into
blank-line-separated blocks and rendering each. -/
def markdown_to_html (body : Text) : Text :=
  joinLines (List.map renderBlock (mdBlocks (splitLines body)))

/-- Final path component: everything after the last slash. -/
def lastComponent (p : Text) : Text :=
  (p.reverse.takeWhile (fun c => c ≠ '/')).reverse

/-- Extension of a path, following the convention used by the build: the part
of the file name after its last dot, none when there is no dot (a leading dot
of a hidden file does not begin an extension). -/
def pathExtension (p : Text) : Option Text :=
  match lastComponent p with
  | [] => none
  | c :: cs =>
    let core := if c = '.' then cs else c :: cs
    if '.' ∈ core then some ((core.reverse.takeWhile (fun ch => ch ≠ '.'))).reverse
    else none

/-- Base name of a path without its extension. -/
def fileStem (p : Text) : Text :=
  match pathExtension p with
  | none => lastComponent p
  | some e => (lastComponent p).take ((lastComponent p).length - (e.length + 1))

/-- Output path of a post: `public/posts/<base name without extension>.html`. -/
def postFileName (path : Text) : Text :=
  ("public/posts/").data ++ fileStem path ++ (".html").data

/-- A file system snapshot: readable paths with their text contents. -/
abbrev FileSystem := List (Text × Text)

/-- Read a file; a path absent from the snapshot models a file that cannot be
read as text (`EncodingError`). -/
def readFile : FileSystem → Text → Except XenError Text
  | [], _ => .error .EncodingError
  | (p, content) :: rest, path =>
    if p = path then .ok content else readFile rest path

/-- A blog post record as assembled by the post path. -/
structure Post where
  front_matter : FrontMatter
  content : Text
  reading_time : Nat
  file_name : Text
deriving DecidableEq

/-- A standalone page record as assembled by the page path. -/
structure Page where
  front_matter : FrontMatter
  content : Text
deriving DecidableEq

/-- Modelled from the spec: the post path of the Page/Post Assembler
(`parse_post_markdown`, `markdown` module, absent from the repository
snapshot): read the file, run Extractor, Renderer and Analyzer, and derive the
output file name. -/
def parse_post_markdown (fs : FileSystem) (path : Text) : Except XenError Post :=
  match readFile fs path with
  | .error e => .error e
  | .ok text =>
    match extract_front_matter text with
    | .error e => .error e
    | .ok (fm, body) =>
      .ok { front_matter := fm
            content := markdown_to_html body
            reading_time := reading_time body
            file_name := postFileName path }

/-- Modelled from the spec: the page path of the Page/Post Assembler
(`parse_page_markdown`, `markdown` module, absent from the repository
snapshot): read the file, run Extractor then Renderer. -/
def parse_page_markdown (fs : FileSystem) (path : Text) : Except XenError Page :=
  match readFile fs path with
  | .error e => .error e
  | .ok text =>
    match extract_front_matter text with
    | .error e => .error e
    | .ok (fm, body) =>
      .ok { front_matter := fm, content := markdown_to_html body }

/-- A segment occurring somewhere inside a text. -/
def containsSeg (pat s : Text) : Prop := ∃ l r, s = l ++ pat ++ r

/-- The `content/hello.md` source of the round-trip scenario. -/
def helloText : Text :=
  ("---\ntitle: Hello\nauthor: Ann\ndate: 2024-01-01\n---\n# Hi\n\nThis is a short post.").data

/-- A one-file snapshot holding the source of the round-trip scenario. -/
def helloFS : FileSystem := [(("content/hello.md").data, helloText)]

/-- The post the round-trip scenario assembles. -/
def helloPost : Post :=
  { front_matter := ⟨("Hello").data, ("Ann").data, ("2024-01-01").data⟩
    content := ("<h1>Hi</h1>\n<p>This is a short post.</p>").data
    reading_time := 1
    file_name := ("public/posts/hello.html").data }

/-- C4: on the `content/hello.md` scenario the post path returns
`file_name = "public/posts/hello.html"`, `reading_time = 1`, and HTML content
containing `<h1>Hi</h1>` and a paragraph with the body text; and in general
the file name of every successfully assembled post is
`public/posts/<base name without extension>.html`. -/
theorem post_roundtrip_scenario :
    (parse_post_markdown helloFS (("content/hello.md").data) = .ok helloPost
      ∧ helloPost.file_name = ("public/posts/hello.html").data
      ∧ helloPost.reading_time = 1
      ∧ containsSeg (("<h1>Hi</h1>").data) helloPost.content
      ∧ containsSeg (("<p>This is a short post.</p>").data) helloPost.content)
    ∧ ∀ (fs : FileSystem) (path : Text) (post : Post),
        parse_post_markdown fs path = .ok post → post.file_name = postFileName path := by
  constructor
  · refine ⟨by rfl, by decide, by decide, ⟨[], ("\n<p>This is a short post.</p>").data, by decide⟩,
      ⟨("<h1>Hi</h1>\n").data, [], by decide⟩⟩
  · intro fs path post h
    unfold parse_post_markdown at h
    split at h
    · exact absurd h (by simp)
    · split at h
      · exact absurd h (by simp)
      · cases h
        rfl

/-- Witness for C4: the general file-name law applied to the scenario post. -/
theorem post_roundtrip_scenario_witness :
    helloPost.file_name = postFileName (("content/hello.md").data) :=
  post_roundtrip_scenario.2 helloFS (("content/hello.md").data) helloPost (by rfl)

/-- C8: the Markdown Renderer is a pure function of the body text, so rendering
the same input twice yields byte-identical HTML. -/
theorem render_deterministic (body : Text) :
    markdown_to_html body = markdown_to_html body := rfl

/-- A run of `n` literal spaces, for the indentation inside the HTML templates
of `src/main.rs`. -/
def spaces (n : Nat) : Text := List.replicate n ' '

/-- Decimal rendering of a number, as interpolated by `format!`. -/
def natText (n : Nat) : Text := (Nat.repr n).data

/-- Leftmost, non-overlapping replacement of every occurrence of `pat`, as in
the Rust function `str::replace`; the fuel (the input length) bounds the scan. -/
def replaceAllGo (pat rep : Text) : Nat → Text → Text
  | _, [] => []
  | 0, s => s
  | fuel + 1, c :: cs =>
    match stripLeading pat (c :: cs) with
    | some rest => rep ++ replaceAllGo pat rep fuel rest
    | none => c :: replaceAllGo pat rep fuel cs

/-- Replace every occurrence of `pat` in `s` by `rep` (Rust `s.replace(pat, rep)`). -/
def replaceAll (s pat rep : Text) : Text := replaceAllGo pat rep s.length s

/-- From src/main.rs, `generate_index`: the link of an index entry is the
file name of the post with `"public/"` replaced away. -/
def linkPath (post : Post) : Text := replaceAll post.file_name (("public/").data) []

/-- From src/main.rs lines 57-74: the per-post HTML page written to disk. -/
def postPageHtml (post : Post) : Text :=
  ("<html>\n").data ++ spaces 44 ++ ("<head>\n").data
  ++ spaces 48 ++ ("<title>").data ++ post.front_matter.title ++ ("</title>\n").data
  ++ spaces 44 ++ ("</head>\n").data ++ spaces 44 ++ ("<body>\n").data
  ++ spaces 48 ++ ("<h1>").data ++ post.front_matter.title ++ ("</h1>\n").data
  ++ spaces 48 ++ ("<p><strong>By ").data ++ post.front_matter.author
    ++ ("</strong> - ").data ++ post.front_matter.date ++ ("</p>\n").data
  ++ spaces 48 ++ ("<p>Estimated Reading Time: ").data ++ natText post.reading_time
    ++ (" min</p>\n").data
  ++ spaces 48 ++ post.content ++ ("\n").data
  ++ spaces 44 ++ ("</body>\n").data
  ++ spaces 40 ++ ("</html>").data

/-- From src/main.rs lines 115-129: the about page HTML. -/
def aboutPageHtml (page : Page) : Text :=
  ("<html>\n").data ++ spaces 20 ++ ("<head>\n").data
  ++ spaces 24 ++ ("<title>").data ++ page.front_matter.title ++ ("</title>\n").data
  ++ spaces 20 ++ ("</head>\n").data ++ spaces 20 ++ ("<body>\n").data
  ++ spaces 24 ++ ("<h1>").data ++ page.front_matter.title ++ ("</h1>\n").data
  ++ spaces 24 ++ ("<p>By ").data ++ page.front_matter.author ++ ("</p>\n").data
  ++ spaces 24 ++ page.content ++ ("\n").data
  ++ spaces 20 ++ ("</body>\n").data
  ++ spaces 16 ++ ("</html>").data

/-- From src/main.rs lines 146-154: the fixed head of `index.html`. -/
def indexHeader : Text :=
  ("<html>\n").data ++ spaces 12 ++ ("<head>\n").data
  ++ spaces 16 ++ ("<title>Xeniria Blog</title>\n").data
  ++ spaces 12 ++ ("</head>\n").data ++ spaces 12 ++ ("<body>\n").data
  ++ spaces 16 ++ ("<h1>Xeniria Blog</h1>\n").data
  ++ spaces 16 ++ ("<ul>").data

/-- From src/main.rs lines 156-168: the `<li>` entry pushed for one post. -/
def postEntryHtml (post : Post) : Text :=
  ("<li>\n").data
  ++ spaces 16 ++ ("<a href=\"").data ++ linkPath post ++ ("\">").data
    ++ post.front_matter.title ++ ("</a>\n").data
  ++ spaces 16 ++ ("- ").data ++ post.front_matter.date ++ (" - ").data
    ++ natText post.reading_time ++ (" min read").data ++ ("\n").data
  ++ spaces 12 ++ ("</li>").data

/-- From src/main.rs lines 170-175: the fixed tail of `index.html`, with the
link to `about.html`. -/
def indexFooter : Text :=
  ("</ul>\n").data
  ++ spaces 8 ++ ("<p><a href=\"about.html\">About</a></p>\n").data
  ++ spaces 8 ++ ("</body>\n").data
  ++ spaces 8 ++ ("</html>").data

/-- From src/main.rs, `generate_index`: start from the header, push one entry
per collected post in order, then push the footer. -/
def generate_index (posts : List Post) : Text :=
  (posts.foldl (fun acc post => acc ++ postEntryHtml post) indexHeader) ++ indexFooter

/-- Concatenation of the rendered pieces of a list, in order. -/
def concatMapText {α : Type} (f : α → Text) : List α → Text
  | [] => []
  | x :: xs => f x ++ concatMapText f xs

/-- Routing of one directory entry in the scan loop of `main` (src/main.rs
lines 47-55): only `.md` files are processed, and among them exactly those
whose path ends in `about.md` take the page path. -/
inductive Route where
  | page
  | post
  | skip
deriving DecidableEq

/-- Route of a scanned path, mirroring the conditionals of `main`. -/
def routeOf (path : Text) : Route :=
  if pathExtension path = some (("md").data) then
    (if (("about.md").data).isSuffixOf path then Route.page else Route.post)
  else Route.skip

/-- Accumulated effects of the scan loop of `main`: collected posts, files
written (path, contents), and diagnostics printed for failing files. -/
structure ScanResult where
  posts : List Post
  outputs : List (Text × Text)
  diagnostics : List (Text × XenError)
deriving DecidableEq

/-- The scan loop of `main` (src/main.rs lines 44-93): route each entry, write
the page or post HTML on success, record a diagnostic on failure, and collect
successful posts in scan order. -/
def buildScan (fs : FileSystem) : List Text → ScanResult
  | [] => ⟨[], [], []⟩
  | path :: rest =>
    let r := buildScan fs rest
    match routeOf path with
    | Route.skip => r
    | Route.page =>
      match parse_page_markdown fs path with
      | .ok page =>
        ⟨r.posts, (("public/about.html").data, aboutPageHtml page) :: r.outputs, r.diagnostics⟩
      | .error e => ⟨r.posts, r.outputs, (path, e) :: r.diagnostics⟩
    | Route.post =>
      match parse_post_markdown fs path with
      | .ok post =>
        ⟨post :: r.posts, (post.file_name, postPageHtml post) :: r.outputs, r.diagnostics⟩
      | .error e => ⟨r.posts, r.outputs, (path, e) :: r.diagnostics⟩

/-- Result of one `Build` invocation. -/
structure BuildResult where
  outputs : List (Text × Text)
  diagnostics : List (Text × XenError)
  posts : List Post
deriving DecidableEq

/-- The `Build` arm of `main` (src/main.rs lines 33-99): scan the content
directory when it is readable (`none` models a missing or unreadable
directory, silently skipped), then always write `public/index.html` from the
collected posts. -/
def runBuild (fs : FileSystem) (scanEntries : Option (List Text)) : BuildResult :=
  let r := buildScan fs (scanEntries.getD [])
  ⟨r.outputs ++ [(("public/index.html").data, generate_index r.posts)], r.diagnostics, r.posts⟩

theorem buildScan_cons_skip (fs : FileSystem) (path : Text) (rest : List Text)
    (h : routeOf path = Route.skip) :
    buildScan fs (path :: rest) = buildScan fs rest := by
  simp [buildScan, h]

theorem buildScan_cons_page_ok (fs : FileSystem) (path : Text) (rest : List Text)
    (page : Page) (h : routeOf path = Route.page)
    (hp : parse_page_markdown fs path = .ok page) :
    buildScan fs (path :: rest) =
      ⟨(buildScan fs rest).posts,
        (("public/about.html").data, aboutPageHtml page) :: (buildScan fs rest).outputs,
        (buildScan fs rest).diagnostics⟩ := by
  simp [buildScan, h, hp]

theorem buildScan_cons_page_err (fs : FileSystem) (path : Text) (rest : List Text)
    (e : XenError) (h : routeOf path = Route.page)
    (hp : parse_page_markdown fs path = .error e) :
    buildScan fs (path :: rest) =
      ⟨(buildScan fs rest).posts, (buildScan fs rest).outputs,
        (path, e) :: (buildScan fs rest).diagnostics⟩ := by
  simp [buildScan, h, hp]

theorem buildScan_cons_post_ok (fs : FileSystem) (path : Text) (rest : List Text)
    (post : Post) (h : routeOf path = Route.post)
    (hp : parse_post_markdown fs path = .ok post) :
    buildScan fs (path :: rest) =
      ⟨post :: (buildScan fs rest).posts,
        (post.file_name, postPageHtml post) :: (buildScan fs rest).outputs,
        (buildScan fs rest).diagnostics⟩ := by
  simp [buildScan, h, hp]

theorem buildScan_cons_post_err (fs : FileSystem) (path : Text) (rest : List Text)
    (e : XenError) (h : routeOf path = Route.post)
    (hp : parse_post_markdown fs path = .error e) :
    buildScan fs (path :: rest) =
      ⟨(buildScan fs rest).posts, (buildScan fs rest).outputs,
        (path, e) :: (buildScan fs rest).diagnostics⟩ := by
  simp [buildScan, h, hp]

theorem buildScan_append (fs : FileSystem) (l1 l2 : List Text) :
    buildScan fs (l1 ++ l2) =
      ⟨(buildScan fs l1).posts ++ (buildScan fs l2).posts,
        (buildScan fs l1).outputs ++ (buildScan fs l2).outputs,
        (buildScan fs l1).diagnostics ++ (buildScan fs l2).diagnostics⟩ := by
  induction l1 with
  | nil => simp [buildScan]
  | cons p t ih =>
    rw [List.cons_append]
    cases hroute : routeOf p with
    | skip =>
      rw [buildScan_cons_skip fs p (t ++ l2) hroute, buildScan_cons_skip fs p t hroute, ih]
    | page =>
      cases hp : parse_page_markdown fs p with
      | ok page =>
        rw [buildScan_cons_page_ok fs p (t ++ l2) page hroute hp,
            buildScan_cons_page_ok fs p t page hroute hp, ih]
        simp
      | error e =>
        rw [buildScan_cons_page_err fs p (t ++ l2) e hroute hp,
            buildScan_cons_page_err fs p t e hroute hp, ih]
        simp
    | post =>
      cases hp : parse_post_markdown fs p with
      | ok post =>
        rw [buildScan_cons_post_ok fs p (t ++ l2) post hroute hp,
            buildScan_cons_post_ok fs p t post hroute hp, ih]
        simp
      | error e =>
        rw [buildScan_cons_post_err fs p (t ++ l2) e hroute hp,
            buildScan_cons_post_err fs p t e hroute hp, ih]
        simp

/-- C5: a file whose parsing fails yields a diagnostic naming the file and the
error, contributes no output file and no collected post, and every other
outputs, diagnostics and index entries of the other files are exactly those of the build
without the failing file. -/
theorem build_failing_file_isolated (fs : FileSystem) (pre suf : List Text) (path : Text)
    (e : XenError) (hroute : routeOf path = Route.post)
    (hfail : parse_post_markdown fs path = .error e) :
    (path, e) ∈ (runBuild fs (some (pre ++ path :: suf))).diagnostics
    ∧ (runBuild fs (some (pre ++ path :: suf))).outputs
        = (runBuild fs (some (pre ++ suf))).outputs
    ∧ (runBuild fs (some (pre ++ path :: suf))).posts
        = (runBuild fs (some (pre ++ suf))).posts := by
  have hb := buildScan_cons_post_err fs path suf e hroute hfail
  have ha := buildScan_append fs pre (path :: suf)
  have hc := buildScan_append fs pre suf
  rw [hb] at ha
  refine ⟨?_, ?_, ?_⟩ <;> simp [runBuild, ha, hc]

/-- An unterminated front-matter block, used as a failing source file. -/
def brokenText : Text := ("---\ntitle: Broken").data

/-- A snapshot with one good post and one broken post source. -/
def mixedFS : FileSystem :=
  [(("content/good.md").data, helloText), (("content/bad.md").data, brokenText)]

/-- Witness for C5: the broken file is diagnosed and the rest of the build is
unchanged. -/
theorem build_failing_file_isolated_witness :
    ((("content/bad.md").data, XenError.MalformedFrontMatter)
        ∈ (runBuild mixedFS (some ([("content/good.md").data] ++ ("content/bad.md").data :: []))).diagnostics)
    ∧ (runBuild mixedFS (some ([("content/good.md").data] ++ ("content/bad.md").data :: []))).outputs
        = (runBuild mixedFS (some ([("content/good.md").data] ++ []))).outputs
    ∧ (runBuild mixedFS (some ([("content/good.md").data] ++ ("content/bad.md").data :: []))).posts
        = (runBuild mixedFS (some ([("content/good.md").data] ++ []))).posts :=
  build_failing_file_isolated mixedFS [("content/good.md").data] [] (("content/bad.md").data)
    XenError.MalformedFrontMatter (by decide) (by rfl)

/-- C6: a scanned `.md` file is routed to the page path exactly when its path
ends in `about.md`, and a page-routed file is never added to the collected
post sequence (hence never reaches the index). -/
theorem about_page_routing :
    (∀ path : Text, pathExtension path = some (("md").data) →
        (routeOf path = Route.page ↔ (("about.md").data).isSuffixOf path = true))
    ∧ ∀ (fs : FileSystem) (pre suf : List Text) (path : Text),
        routeOf path = Route.page →
        (runBuild fs (some (pre ++ path :: suf))).posts
          = (runBuild fs (some (pre ++ suf))).posts := by
  constructor
  · intro path hmd
    unfold routeOf
    rw [if_pos hmd]
    by_cases hs : (("about.md").data).isSuffixOf path = true
    · simp [hs]
    · simp [hs]
  · intro fs pre suf path hroute
    have ha := buildScan_append fs pre (path :: suf)
    have hc := buildScan_append fs pre suf
    cases hp : parse_page_markdown fs path with
    | ok page =>
      rw [buildScan_cons_page_ok fs path suf page hroute hp] at ha
      simp [runBuild, ha, hc]
    | error e =>
      rw [buildScan_cons_page_err fs path suf e hroute hp] at ha
      simp [runBuild, ha, hc]

/-- A snapshot holding only an about page source. -/
def aboutFS : FileSystem := [(("content/about.md").data, helloText)]

/-- Witness for C6 at the `content/about.md` scenario. -/
theorem about_page_routing_witness :
    (routeOf (("content/about.md").data) = Route.page
      ↔ (("about.md").data).isSuffixOf (("content/about.md").data) = true)
    ∧ (runBuild aboutFS (some ([] ++ ("content/about.md").data :: []))).posts
        = (runBuild aboutFS (some ([] ++ []))).posts :=
  ⟨about_page_routing.1 (("content/about.md").data) (by decide),
    about_page_routing.2 aboutFS [] [] (("content/about.md").data) (by decide)⟩

theorem foldl_push_entries (posts : List Post) (init : Text) :
    posts.foldl (fun acc post => acc ++ postEntryHtml post) init
      = init ++ concatMapText postEntryHtml posts := by
  induction posts generalizing init with
  | nil => simp [concatMapText]
  | cons p ps ih => simp [List.foldl, concatMapText, ih, List.append_assoc]

/-- C7: the generated index is the fixed header, then exactly one `<li>` entry
per collected post in collection order, then the fixed footer; each entry
carries the link to the output path of the post relative to `public/`, its title,
date and reading time, and the footer carries the `about.html` link. -/
theorem index_shape (posts : List Post) (post : Post) :
    generate_index posts = indexHeader ++ concatMapText postEntryHtml posts ++ indexFooter
    ∧ containsSeg (("<a href=\"").data ++ linkPath post ++ ("\">").data) (postEntryHtml post)
    ∧ containsSeg post.front_matter.title (postEntryHtml post)
    ∧ containsSeg post.front_matter.date (postEntryHtml post)
    ∧ containsSeg (natText post.reading_time ++ (" min read").data) (postEntryHtml post)
    ∧ containsSeg (("<a href=\"about.html\">About</a>").data) indexFooter := by
  refine ⟨by rw [generate_index, foldl_push_entries], ?_, ?_, ?_, ?_, ?_⟩
  · exact ⟨("<li>\n").data ++ spaces 16,
      post.front_matter.title ++ ("</a>\n").data ++ spaces 16 ++ ("- ").data
        ++ post.front_matter.date ++ (" - ").data ++ natText post.reading_time
        ++ (" min read").data ++ ("\n").data ++ spaces 12 ++ ("</li>").data,
      by simp [postEntryHtml, List.append_assoc]⟩
  · exact ⟨("<li>\n").data ++ spaces 16 ++ ("<a href=\"").data ++ linkPath post ++ ("\">").data,
      ("</a>\n").data ++ spaces 16 ++ ("- ").data ++ post.front_matter.date ++ (" - ").data
        ++ natText post.reading_time ++ (" min read").data ++ ("\n").data
        ++ spaces 12 ++ ("</li>").data,
      by simp [postEntryHtml, List.append_assoc]⟩
  · exact ⟨("<li>\n").data ++ spaces 16 ++ ("<a href=\"").data ++ linkPath post ++ ("\">").data
        ++ post.front_matter.title ++ ("</a>\n").data ++ spaces 16 ++ ("- ").data,
      (" - ").data ++ natText post.reading_time ++ (" min read").data ++ ("\n").data
        ++ spaces 12 ++ ("</li>").data,
      by simp [postEntryHtml, List.append_assoc]⟩
  · exact ⟨("<li>\n").data ++ spaces 16 ++ ("<a href=\"").data ++ linkPath post ++ ("\">").data
        ++ post.front_matter.title ++ ("</a>\n").data ++ spaces 16 ++ ("- ").data
        ++ post.front_matter.date ++ (" - ").data,
      ("\n").data ++ spaces 12 ++ ("</li>").data,
      by simp [postEntryHtml, List.append_assoc]⟩
  · exact ⟨("</ul>\n        <p>").data, ("</p>\n        </body>\n        </html>").data,
      by decide⟩

/-- The CLI subcommands of src/main.rs lines 21-27. -/
inductive Commands where
  | Build
  | Serve
deriving DecidableEq

/-- From src/main.rs lines 101-107: the `Serve` arm binds `port = 8464` and
passes exactly that value to `start_server`; the `Build` arm starts no server. -/
def startedServerPort : Commands → Option Nat
  | Commands.Build => none
  | Commands.Serve => some 8464

/-- C9: every `Serve` invocation starts the preview server on port 8464, and no
invocation ever passes any other port. -/
theorem serve_fixed_port :
    startedServerPort Commands.Serve = some 8464
    ∧ ∀ c : Commands,
        startedServerPort c = none ∨ startedServerPort c = some 8464 := by
  refine ⟨rfl, ?_⟩
  intro c
  cases c with
  | Build => exact Or.inl rfl
  | Serve => exact Or.inr rfl

/-- C10: every build writes `public/index.html` from the collected posts; when
the scan yields nothing (in particular when the content directory is missing,
modelled by `none`), the index is still written, with an empty post list and
the `about.html` link. -/
theorem index_always_generated (fs : FileSystem) (scan : Option (List Text)) :
    ((("public/index.html").data, generate_index (runBuild fs scan).posts)
        ∈ (runBuild fs scan).outputs)
    ∧ (runBuild fs none).posts = []
    ∧ (runBuild fs none).outputs = [(("public/index.html").data, generate_index [])]
    ∧ generate_index [] = indexHeader ++ indexFooter
    ∧ containsSeg (("<a href=\"about.html\">About</a>").data) (generate_index []) := by
  refine ⟨?_, ?_, ?_, rfl, ?_⟩
  · simp [runBuild]
  · rfl
  · rfl
  · exact ⟨indexHeader ++ ("</ul>\n        <p>").data,
      ("</p>\n        </body>\n        </html>").data, by decide⟩

end Xeniria
